import Mathlib

/-!
# `gh workflow lint` (pkg/cmd/workflow/lint/lint.go)

A shallow embedding of `NewCmdLint`'s `RunE` closure, `runView` and
`viewWorkflowContent`.

The three functions are sequential Go code that talks to collaborators which
live outside the file (the HTTP client factory, the base-repository lookup,
`shared.ResolveWorkflow`, `api.RepoDefaultBranch`, `shared.GetWorkflowContent`,
`lint.Lint`, the browser, the terminal queries and the writer `opts.IO.Out`).
Every collaborator call is recorded as an `Event` in a trace, and each
collaborator is an arbitrary function of the trace so far and of its
arguments (`Env`), so a statement quantified over `Env` speaks about every
behaviour the collaborators can show, stateful ones included.
-/

namespace Lint

/-! ## Go errors -/

/-- Go `error` values, by dynamic type: `*errors.errorString` (what `fmt.Errorf`
returns without `%w`), `*fmt.wrapError` (what `fmt.Errorf` returns with `%w`),
`api.HTTPError` (with the text its `Error()` method renders), and
`*cmdutil.FlagError`. -/
inductive GoError where
  | errorString (s : String)
  | wrapError (msg : String) (err : GoError)
  | HTTPError (StatusCode : Int) (text : String)
  | FlagError (err : GoError)
  deriving DecidableEq, Repr

/-- The `Error()` method. -/
def GoError.Error : GoError → String
  | .errorString s => s
  | .wrapError msg _ => msg
  | .HTTPError _ text => text
  | .FlagError err => err.Error

/-- `errors.Unwrap`: the wrapped cause, when the dynamic type has an `Unwrap`
method. -/
def GoError.Unwrap : GoError → Option GoError
  | .errorString _ => none
  | .wrapError _ err => some err
  | .HTTPError _ _ => none
  | .FlagError err => some err

/-- `fmt.Errorf(pre + "%w", err)`: the text is the format with `err.Error()`
substituted, and `Unwrap` returns `err`. -/
def Errorf_w (pre : String) (err : GoError) : GoError :=
  .wrapError (pre ++ err.Error) err

/-- `fmt.Errorf` on an already formatted text without `%w`. -/
def Errorf (text : String) : GoError :=
  .errorString text

/-- `cmdutil.FlagErrorf(text)`: a `FlagError` around `fmt.Errorf(text)`. -/
def FlagErrorf (text : String) : GoError :=
  .FlagError (Errorf text)

/-- The test `s, ok := err.(api.HTTPError); ok && s.StatusCode == 404`: a type
assertion on the error itself (no unwrapping) and a status comparison. -/
def isHTTP404 : GoError → Bool
  | .HTTPError StatusCode _ => StatusCode == 404
  | _ => false

/-- `s` occurs in `t` as a contiguous substring. -/
def Contains (t s : String) : Prop :=
  s.data <:+: t.data

instance (t s : String) : Decidable (Contains t s) := by
  unfold Contains; infer_instance

/-! ## Data model -/

/-- Modelled from the spec: `shared.WorkflowState`, declared outside the file;
the enumerated lifecycle states the spec lists. -/
inductive WorkflowState where
  | Active
  | Deleted
  | DisabledManually
  | DisabledInactivity
  deriving DecidableEq, Repr

/-- Modelled from the spec: `shared.Workflow`, declared outside the file:
numeric ID, display name, repository-relative path, lifecycle state. -/
structure Workflow where
  Name : String
  ID : Int
  Path : String
  State : WorkflowState
  deriving DecidableEq, Repr

/-- Strip trailing slashes (the first loop of Go's `path.Base`), on the
reversed character list. -/
def dropSlashes : List Char → List Char
  | [] => []
  | c :: cs => if c = '/' then dropSlashes cs else c :: cs

/-- Modelled from the spec: the final segment of a path, as Go's `path.Base`
computes it (`"."` for the empty path, `"/"` for a path of slashes only). -/
def pathBase (path : String) : String :=
  if path = "" then "."
  else
    let r := dropSlashes path.data.reverse
    let last := (r.takeWhile (fun c => c != '/')).reverse
    if last = [] then "/" else String.mk last

/-- Modelled from the spec: `Workflow.Base()`, the derived base file name
(the path's final segment); the method is declared outside the file. -/
def Workflow.Base (w : Workflow) : String :=
  pathBase w.Path

/-- The value `ghrepo.Interface` describes. -/
structure Repo where
  host : String
  owner : String
  name : String
  deriving DecidableEq, Repr

/-- Raw content of a workflow file. -/
abbrev Bytes := List (Fin 256)

/-- The fields of `LintOptions` that are data; the function-valued fields
(`HttpClient`, `IO`, `BaseRepo`, `Browser`) are in `Env`. -/
structure LintOptions where
  Selector : String
  Ref : String
  Web : Bool
  Prompt : Bool
  Raw : Bool
  YAML : Bool
  deriving DecidableEq, Repr

/-- Go's `string`, seen as the bytes the writer receives: the UTF-8 encoding. -/
def bytesOf (text : String) : List UInt8 :=
  text.data.flatMap String.utf8EncodeChar

/-- Modelled from the spec: what `lint.Lint` returns on success. Its declaration
is outside the file; the spec gives the engine's result as a lazy sequence of
problem descriptions, in Go a receive channel of strings, given here by the
values received until it is closed. -/
inductive Problems where
  | chan (xs : List String)
  deriving DecidableEq, Repr

/-- The problems themselves, in the engine's order. -/
def Problems.elems : Problems → List String
  | .chan xs => xs

/-- The successive values of `problem` in `for problem := range problems`: over
a channel the single iteration variable is bound to each received element. -/
def rangeVars : Problems → List String
  | .chan xs => xs

/-- `fmt.Sprintln(v)` for one string operand: the string, then a newline. -/
def Sprintln (v : String) : String :=
  v ++ "\n"

/-! ## Collaborators, trace and state -/

/-- One call to a collaborator, with the arguments it was given. -/
inductive Event where
  | IsStdoutTTY
  | CanPrompt
  | HttpClient
  | BaseRepo
  | ResolveWorkflow (client : Nat) (repo : Repo) (prompt : Bool) (selector : String)
      (states : List WorkflowState)
  | StartProgressIndicator
  | StopProgressIndicator
  | RepoDefaultBranch (client : Nat) (repo : Repo)
  | GetWorkflowContent (client : Nat) (repo : Repo) (workflow : Workflow) (ref : String)
  | Lint (filename : String) (input : Bytes)
  | Write (text : String)
  | Browse (url : String)
  | runF (opts : LintOptions)
  deriving DecidableEq, Repr

/-- The collaborators. Each one sees the trace of the calls made before it. An
HTTP client is identified by a number. `Write` is `opts.IO.Out.Write`: the
count of bytes it accepted and its error. `GenerateRepoURL` and
`DisplayURL` are the pure helpers of `ghrepo` and `utils`, taken as they are. -/
structure Env where
  IsStdoutTTY : List Event → Bool
  CanPrompt : List Event → Bool
  HttpClient : List Event → Except GoError Nat
  BaseRepo : List Event → Except GoError Repo
  ResolveWorkflow : List Event → Nat → Repo → Bool → String → List WorkflowState →
    Except GoError Workflow
  RepoDefaultBranch : List Event → Nat → Repo → Except GoError String
  GetWorkflowContent : List Event → Nat → Repo → Workflow → String → Except GoError Bytes
  Lint : List Event → String → Bytes → Except GoError Problems
  Write : List Event → String → Nat × Option GoError
  Browse : List Event → String → Option GoError
  GenerateRepoURL : Repo → String → List String → String
  DisplayURL : String → String

/-- The observable state: the calls made so far, oldest first, and the bytes
the output sink has accepted. -/
structure World where
  trace : List Event
  out : List UInt8
  deriving DecidableEq, Repr

/-- Record a collaborator call. -/
def World.log (w : World) (e : Event) : World :=
  { w with trace := w.trace ++ [e] }

/-- `fmt.Fprint*(opts.IO.Out, ...)` with the formatted `text`: one `Write` call
on the sink, which keeps the first `n` bytes when it reports `n` written. The error is returned
to the caller of `Fprint*`. -/
def Fprint (env : Env) (text : String) (w : World) : Option GoError × World :=
  let r := env.Write w.trace text
  (r.2, { trace := w.trace ++ [Event.Write text], out := w.out ++ (bytesOf text).take r.1 })

/-! ## The code -/

/-- The loop `for problem := range problems { fmt.Fprintln(opts.IO.Out, problem) }`
over the successive values of `problem`; the result of `Fprintln` is discarded. -/
def printLoop (env : Env) : List String → World → World
  | [], w => w
  | v :: vs, w => printLoop env vs (Fprint env (Sprintln v) w).2

/-- `viewWorkflowContent(opts, client, workflow)`; the returned error is `none`
for Go's `nil`. -/
def viewWorkflowContent (env : Env) (opts : LintOptions) (client : Nat) (workflow : Workflow)
    (w : World) : Option GoError × World :=
  match env.BaseRepo w.trace with
  | .error err => (some (Errorf_w "could not determine base repo: " err), w.log .BaseRepo)
  | .ok repo =>
    let w1 := (w.log .BaseRepo).log .StartProgressIndicator
    let fetched := env.GetWorkflowContent w1.trace client repo workflow opts.Ref
    let w2 := (w1.log (.GetWorkflowContent client repo workflow opts.Ref)).log
      .StopProgressIndicator
    match fetched with
    | .error err =>
      if isHTTP404 err then
        if opts.Ref ≠ "" then
          (some (Errorf ("could not find workflow file " ++ workflow.Base ++ " on " ++ opts.Ref
            ++ ", try specifying a different ref")), w2)
        else
          (some (Errorf ("could not find workflow file " ++ workflow.Base
            ++ ", try specifying a branch or tag using `--ref`")), w2)
      else
        (some (Errorf_w "could not get workflow file content: " err), w2)
    | .ok yamlBytes =>
      match env.Lint w2.trace workflow.Name yamlBytes with
      | .error err =>
        (some (Errorf ("error linting file " ++ workflow.Name ++ ": " ++ err.Error)),
          w2.log (.Lint workflow.Name yamlBytes))
      | .ok problems =>
        (none, printLoop env (rangeVars problems) (w2.log (.Lint workflow.Name yamlBytes)))

/-- The end of the `--web` branch of `runView`, once `url` is computed: the
notice `Opening ... in your browser.` when standard output is a terminal (the
result of `Fprintf` is discarded), then `opts.Browser.Browse(url)`, whose result
is returned as it is. -/
def openInBrowser (env : Env) (url : String) (w : World) : Option GoError × World :=
  let tty := env.IsStdoutTTY w.trace
  let w1 := w.log .IsStdoutTTY
  let w2 := if tty then
      (Fprint env ("Opening " ++ env.DisplayURL url ++ " in your browser.\n") w1).2
    else w1
  (env.Browse w2.trace url, w2.log (.Browse url))

/-- `runView(opts)`. -/
def runView (env : Env) (opts : LintOptions) (w : World) : Option GoError × World :=
  match env.HttpClient w.trace with
  | .error err => (some (Errorf_w "could not build http client: " err), w.log .HttpClient)
  | .ok client =>
    let w1 := w.log .HttpClient
    match env.BaseRepo w1.trace with
    | .error err => (some (Errorf_w "could not determine base repo: " err), w1.log .BaseRepo)
    | .ok repo =>
      let w2 := w1.log .BaseRepo
      let states := [WorkflowState.Active]
      match env.ResolveWorkflow w2.trace client repo opts.Prompt opts.Selector states with
      | .error err =>
        (some err, w2.log (.ResolveWorkflow client repo opts.Prompt opts.Selector states))
      | .ok workflow =>
        let w3 := w2.log (.ResolveWorkflow client repo opts.Prompt opts.Selector states)
        if opts.Web then
          if opts.YAML then
            if opts.Ref = "" then
              let w4 := w3.log .StartProgressIndicator
              let branch := env.RepoDefaultBranch w4.trace client repo
              let w5 := (w4.log (.RepoDefaultBranch client repo)).log .StopProgressIndicator
              match branch with
              | .error err => (some err, w5)
              | .ok ref =>
                openInBrowser env (env.GenerateRepoURL repo "blob/%s/%s" [ref, workflow.Path]) w5
            else
              openInBrowser env
                (env.GenerateRepoURL repo "blob/%s/%s" [opts.Ref, workflow.Path]) w3
          else
            openInBrowser env
              (env.GenerateRepoURL repo "actions/workflows/%s" [workflow.Base]) w3
        else
          viewWorkflowContent env opts client workflow w3

/-- The options record `NewCmdLint` allocates (zero values), after cobra has
stored the parsed values of `--web`, `--yaml` and `--ref` into it. -/
def NewCmdLint.opts (web yaml : Bool) (ref : String) : LintOptions :=
  { Selector := "", Ref := ref, Web := web, Prompt := false, Raw := false, YAML := yaml }

/-- The `RunE` closure of the command `NewCmdLint(f, runF)` builds, run on the
positional `args` with the options record in state `opts`. `runF` is `none`
for Go's `nil`; a non-nil `runF` is a collaborator like the others. The
options record is returned with the error, since the closure updates it. -/
def RunE (env : Env) (runF : Option (List Event → LintOptions → Option GoError))
    (opts : LintOptions) (args : List String) (w : World) :
    Option GoError × LintOptions × World :=
  let tty := env.IsStdoutTTY w.trace
  let w1 := w.log .IsStdoutTTY
  let opts1 := { opts with Raw := !tty }
  let continue_ := fun (opts2 : LintOptions) (w2 : World) =>
    if !opts2.YAML && opts2.Ref ≠ "" then
      (some (FlagErrorf "`--yaml` required when specifying `--ref`"), opts2, w2)
    else
      match runF with
      | some f => (f w2.trace opts2, opts2, w2.log (.runF opts2))
      | none => ((runView env opts2 w2).1, opts2, (runView env opts2 w2).2)
  match args with
  | a :: _ => continue_ { opts1 with Selector := a } w1
  | [] =>
    if !env.CanPrompt w1.trace then
      (some (FlagErrorf "workflow argument required when not running interactively"), opts1,
        w1.log .CanPrompt)
    else
      continue_ { opts1 with Prompt := true } (w1.log .CanPrompt)

/-- `cobra.MaximumNArgs(n)`, the validator the command declares as `Args`: more
than `n` positional arguments are an error. -/
def MaximumNArgs (n : Nat) (args : List String) : Option GoError :=
  if args.length > n then
    some (Errorf ("accepts at most " ++ toString n ++ " arg(s), received "
      ++ toString args.length))
  else none

/-- One execution of the command `NewCmdLint(f, runF)` returns: cobra stores the
parsed flags into the fresh options record, validates the positional arguments
with `Args: cobra.MaximumNArgs(1)` and, when they pass, calls `RunE` on them. -/
def NewCmdLint (env : Env) (runF : Option (List Event → LintOptions → Option GoError))
    (web yaml : Bool) (ref : String) (args : List String) (w : World) :
    Option GoError × LintOptions × World :=
  match MaximumNArgs 1 args with
  | some err => (some err, NewCmdLint.opts web yaml ref, w)
  | none => RunE env runF (NewCmdLint.opts web yaml ref) args w

/-! ## Reading a trace -/

/-- A call to `shared.ResolveWorkflow`. -/
def Event.isResolve : Event → Bool
  | .ResolveWorkflow _ _ _ _ _ => true
  | _ => false

/-- A call to `shared.GetWorkflowContent`. -/
def Event.isFetch : Event → Bool
  | .GetWorkflowContent _ _ _ _ => true
  | _ => false

/-- A call to `lint.Lint`. -/
def Event.isLint : Event → Bool
  | .Lint _ _ => true
  | _ => false

/-- A `Write` on the output sink. -/
def Event.isWrite : Event → Bool
  | .Write _ => true
  | _ => false

/-- The start of a pipeline run: a call to `runF`, or the call to
`opts.HttpClient` that `runView` makes first. -/
def Event.isPipelineStart : Event → Bool
  | .runF _ => true
  | .HttpClient => true
  | _ => false

/-- A call to `opts.Browser.Browse`. -/
def Event.isBrowse : Event → Bool
  | .Browse _ => true
  | _ => false

/-- Number of workflow resolutions in a trace. -/
def resolutions (t : List Event) : Nat := t.countP Event.isResolve

/-- Number of content fetches in a trace. -/
def fetches (t : List Event) : Nat := t.countP Event.isFetch

/-- Number of lint passes in a trace. -/
def lintPasses (t : List Event) : Nat := t.countP Event.isLint

/-- Number of writes attempted on the output sink in a trace. -/
def writes (t : List Event) : Nat := t.countP Event.isWrite

/-- Number of times the browser was opened in a trace. -/
def browses (t : List Event) : Nat := t.countP Event.isBrowse

/-- Number of pipeline runs started in a trace. -/
def pipelineStarts (t : List Event) : Nat := t.countP Event.isPipelineStart

/-- A sink that accepts every write in full. -/
def Env.sinkAccepts (env : Env) : Prop :=
  ∀ t text, env.Write t text = ((bytesOf text).length, none)

/-! ## States of a run -/

/-- The state in which `viewWorkflowContent` calls the engine: after the
base-repository lookup and the fetch, bracketed by the progress indicator. -/
def beforeLint (w : World) (client : Nat) (repo : Repo) (workflow : Workflow) (ref : String) :
    List Event :=
  w.trace ++ [.BaseRepo, .StartProgressIndicator, .GetWorkflowContent client repo workflow ref,
    .StopProgressIndicator]

/-- The state in which `runView` calls the resolver. -/
def beforeResolve (w : World) : List Event :=
  w.trace ++ [.HttpClient, .BaseRepo]

/-- The state in which `runView` goes on after a successful resolution. -/
def afterResolve (w : World) (client : Nat) (repo : Repo) (opts : LintOptions) : World :=
  { trace := beforeResolve w ++ [.ResolveWorkflow client repo opts.Prompt opts.Selector [.Active]],
    out := w.out }

/-- The error `r` wraps the cause `e` with the stage context `context`: `e` is
what `errors.Unwrap(r)` returns, `r` is not `e` itself, and the text of `r` is
the context followed by the text of `e`. -/
def Wraps (r e : GoError) (context : String) : Prop :=
  r.Unwrap = some e ∧ r ≠ e ∧ r.Error = context ++ e.Error

/-- The state after the terminal queries `RunE` makes before the flag check:
`IsStdoutTTY` always, `CanPrompt` only when no argument is given. -/
def afterQueries (args : List String) (w : World) : World :=
  match args with
  | _ :: _ => w.log .IsStdoutTTY
  | [] => (w.log .IsStdoutTTY).log .CanPrompt

/-! ## Sample collaborators, used to instantiate the theorems -/

/-- A workflow whose display name differs from its file name. -/
def sampleWorkflow : Workflow :=
  { Name := "CI", ID := 7, Path := ".github/workflows/build.yml", State := .Active }

/-- The repository the sample collaborators report. -/
def sampleRepo : Repo :=
  { host := "github.com", owner := "octo", name := "demo" }

/-- Collaborators that all succeed: the resolver finds `sampleWorkflow`, the
content is empty, the engine reports the lint result `ps`, the sink accepts
every write, the terminal is not a TTY and cannot prompt. -/
def sampleEnv (ps : Problems) : Env :=
  { IsStdoutTTY := fun _ => false
    CanPrompt := fun _ => false
    HttpClient := fun _ => .ok 0
    BaseRepo := fun _ => .ok sampleRepo
    ResolveWorkflow := fun _ _ _ _ _ _ => .ok sampleWorkflow
    RepoDefaultBranch := fun _ _ _ => .ok "main"
    GetWorkflowContent := fun _ _ _ _ _ => .ok []
    Lint := fun _ _ _ => .ok ps
    Write := fun _ text => ((bytesOf text).length, none)
    Browse := fun _ _ => none
    GenerateRepoURL := fun repo _ args =>
      "https://" ++ repo.host ++ "/" ++ repo.owner ++ "/" ++ repo.name ++ "/" ++
        String.intercalate "/" args
    DisplayURL := fun url => url }

/-- The options of `gh workflow lint build.yml` with the given flags. -/
def sampleOpts (web yaml : Bool) (ref : String) : LintOptions :=
  { Selector := "build.yml", Ref := ref, Web := web, Prompt := false, Raw := true, YAML := yaml }

/-- The empty starting state. -/
def World.init : World := { trace := [], out := [] }

/-! ## Basic lemmas -/

@[simp] theorem World.log_trace (w : World) (e : Event) : (w.log e).trace = w.trace ++ [e] := rfl

@[simp] theorem World.log_out (w : World) (e : Event) : (w.log e).out = w.out := rfl

@[simp] theorem Fprint_trace (env : Env) (text : String) (w : World) :
    (Fprint env text w).2.trace = w.trace ++ [Event.Write text] := rfl

@[simp] theorem Fprint_fst (env : Env) (text : String) (w : World) :
    (Fprint env text w).1 = (env.Write w.trace text).2 := rfl

theorem printLoop_trace (env : Env) (vs : List String) (w : World) :
    (printLoop env vs w).trace = w.trace ++ vs.map (fun v => Event.Write (Sprintln v)) := by
  induction vs generalizing w with
  | nil => simp [printLoop]
  | cons v vs ih => simp [printLoop, ih]

theorem bytesOf_append (a b : String) : bytesOf (a ++ b) = bytesOf a ++ bytesOf b := by
  simp [bytesOf, String.data_append]

theorem bytesOf_join (ls : List String) :
    bytesOf (String.join ls) = (ls.map bytesOf).flatten := by
  induction ls with
  | nil => simp [bytesOf, String.join_eq]
  | cons l ls ih =>
    have h : String.join (l :: ls) = l ++ String.join ls := by
      apply String.ext
      simp [String.join_eq, String.data_append]
    rw [h, bytesOf_append, ih]
    simp

theorem printLoop_out (env : Env) (h : env.sinkAccepts) (vs : List String) (w : World) :
    (printLoop env vs w).out = w.out ++ (vs.map (fun v => bytesOf (Sprintln v))).flatten := by
  induction vs generalizing w with
  | nil => simp [printLoop]
  | cons v vs ih =>
    have hw : env.Write w.trace (Sprintln v) = ((bytesOf (Sprintln v)).length, none) := h _ _
    rw [printLoop, ih]
    simp [Fprint, hw]

theorem rangeVars_length (ps : Problems) : (rangeVars ps).length = ps.elems.length := by
  cases ps
  simp [rangeVars, Problems.elems]

theorem contains_mid (a s b : String) : Contains (a ++ s ++ b) s :=
  ⟨a.data, b.data, by simp [String.data_append]⟩

theorem contains_append_right {t s : String} (u : String) (h : Contains t s) :
    Contains (t ++ u) s := by
  obtain ⟨a, b, hab⟩ := h
  exact ⟨a, b ++ u.data, by simp [String.data_append, ← hab]⟩

theorem contains_append_left {t s : String} (u : String) (h : Contains t s) :
    Contains (u ++ t) s := by
  obtain ⟨a, b, hab⟩ := h
  exact ⟨u.data ++ a, b, by simp [String.data_append, ← hab]⟩

theorem contains_self (s : String) : Contains s s :=
  ⟨[], [], by simp⟩

/-! ## Content not found (C2) -/

/-- C2: when the content fetch fails with an HTTP error of status 404,
`viewWorkflowContent` returns an error whose message contains the workflow's
base file name and, for a non-empty ref, the ref; for an empty ref it contains
the base file name and the text `--ref`; and the message of a run with a ref
differs from the message of a run without one on the same workflow. -/
theorem C2_not_found_messages (envA envB : Env) (optsA optsB : LintOptions)
    (clientA clientB : Nat) (workflow : Workflow) (wA wB : World) (repoA repoB : Repo)
    (textA textB : String)
    (hrefA : optsA.Ref ≠ "") (hrefB : optsB.Ref = "")
    (hrepoA : envA.BaseRepo wA.trace = .ok repoA)
    (hrepoB : envB.BaseRepo wB.trace = .ok repoB)
    (hfetchA : envA.GetWorkflowContent (wA.trace ++ [.BaseRepo, .StartProgressIndicator])
      clientA repoA workflow optsA.Ref = .error (.HTTPError 404 textA))
    (hfetchB : envB.GetWorkflowContent (wB.trace ++ [.BaseRepo, .StartProgressIndicator])
      clientB repoB workflow optsB.Ref = .error (.HTTPError 404 textB)) :
    ∃ msgA msgB : String,
      (viewWorkflowContent envA optsA clientA workflow wA).1 = some (GoError.errorString msgA) ∧
      (viewWorkflowContent envB optsB clientB workflow wB).1 = some (GoError.errorString msgB) ∧
      Contains msgA workflow.Base ∧ Contains msgA optsA.Ref ∧
      Contains msgB workflow.Base ∧ Contains msgB "--ref" ∧
      msgA ≠ msgB := by
  refine ⟨"could not find workflow file " ++ workflow.Base ++ " on " ++ optsA.Ref
      ++ ", try specifying a different ref",
    "could not find workflow file " ++ workflow.Base
      ++ ", try specifying a branch or tag using `--ref`", ?_, ?_, ?_, ?_, ?_, ?_, ?_⟩
  · simp [viewWorkflowContent, hrepoA, hfetchA, isHTTP404, hrefA, Errorf]
  · rw [hrefB] at hfetchB
    simp [viewWorkflowContent, hrepoB, hfetchB, isHTTP404, hrefB, Errorf]
  · exact contains_append_right _ (contains_append_right _ (contains_mid _ _ _))
  · exact contains_mid _ _ _
  · exact contains_mid _ _ _
  · exact contains_append_left _ (by decide)
  · intro h
    have h2 := congrArg String.data h
    simp [String.data_append] at h2

/-- C2 at scenario C of the specification: ref `feature/x`, the fetch answers
404 for both runs. -/
theorem C2_not_found_messages_witness :
    ∃ msgA msgB : String,
      (viewWorkflowContent
        { sampleEnv (.chan []) with
          GetWorkflowContent := fun _ _ _ _ _ => .error (.HTTPError 404 "HTTP 404") }
        (NewCmdLint.opts false true "feature/x") 0 sampleWorkflow World.init).1
        = some (GoError.errorString msgA) ∧
      (viewWorkflowContent
        { sampleEnv (.chan []) with
          GetWorkflowContent := fun _ _ _ _ _ => .error (.HTTPError 404 "HTTP 404") }
        (NewCmdLint.opts false false "") 0 sampleWorkflow World.init).1
        = some (GoError.errorString msgB) ∧
      Contains msgA sampleWorkflow.Base ∧
      Contains msgA (NewCmdLint.opts false true "feature/x").Ref ∧
      Contains msgB sampleWorkflow.Base ∧ Contains msgB "--ref" ∧
      msgA ≠ msgB :=
  C2_not_found_messages _ _ (NewCmdLint.opts false true "feature/x")
    (NewCmdLint.opts false false "") 0 0 sampleWorkflow World.init World.init
    sampleRepo sampleRepo "HTTP 404" "HTTP 404" (by decide) rfl rfl rfl rfl rfl

/-! ## Selector required (C3) -/

/-- C3: with no positional argument in a session that cannot prompt, `RunE`
fails with the flag error "workflow argument required when not running
interactively"; the only collaborator calls it makes are the two terminal
queries, so neither `runF` nor `runView` runs, no HTTP client is built and no
remote call is made; nothing is written. -/
theorem C3_selector_required (env : Env)
    (runF : Option (List Event → LintOptions → Option GoError))
    (opts : LintOptions) (w : World)
    (hprompt : env.CanPrompt (w.trace ++ [.IsStdoutTTY]) = false) :
    (RunE env runF opts [] w).1
        = some (FlagErrorf "workflow argument required when not running interactively") ∧
      (RunE env runF opts [] w).2.2.trace = w.trace ++ [.IsStdoutTTY, .CanPrompt] ∧
      (RunE env runF opts [] w).2.2.out = w.out ∧
      pipelineStarts (RunE env runF opts [] w).2.2.trace = pipelineStarts w.trace := by
  simp [RunE, hprompt, pipelineStarts, List.countP_append, List.countP_cons,
    Event.isPipelineStart]

/-- C3 on the sample collaborators, whose session cannot prompt. -/
theorem C3_selector_required_witness :
    (RunE (sampleEnv (.chan [])) none (NewCmdLint.opts false false "") [] World.init).1
        = some (FlagErrorf "workflow argument required when not running interactively") ∧
      (RunE (sampleEnv (.chan [])) none (NewCmdLint.opts false false "") []
        World.init).2.2.trace = World.init.trace ++ [.IsStdoutTTY, .CanPrompt] ∧
      (RunE (sampleEnv (.chan [])) none (NewCmdLint.opts false false "") []
        World.init).2.2.out = World.init.out ∧
      pipelineStarts (RunE (sampleEnv (.chan [])) none (NewCmdLint.opts false false "") []
        World.init).2.2.trace = pipelineStarts World.init.trace :=
  C3_selector_required (sampleEnv (.chan [])) none (NewCmdLint.opts false false "")
    World.init rfl

/-! ## The lint stage and the report (C1, C4, C5, C10) -/

/-- On a successful fetch and lint pass, `viewWorkflowContent` returns nil and
its trace is the five calls up to the engine followed by one `Write` per value
of the loop variable. -/
theorem viewWorkflowContent_ok (env : Env) (opts : LintOptions) (client : Nat)
    (workflow : Workflow) (w : World) (repo : Repo) (yamlBytes : Bytes) (ps : Problems)
    (hrepo : env.BaseRepo w.trace = .ok repo)
    (hfetch : env.GetWorkflowContent (w.trace ++ [.BaseRepo, .StartProgressIndicator])
      client repo workflow opts.Ref = .ok yamlBytes)
    (hlint : env.Lint (beforeLint w client repo workflow opts.Ref) workflow.Name yamlBytes
      = .ok ps) :
    viewWorkflowContent env opts client workflow w =
      (none, printLoop env (rangeVars ps)
        { trace := beforeLint w client repo workflow opts.Ref ++ [.Lint workflow.Name yamlBytes],
          out := w.out }) := by
  simp only [beforeLint] at hlint
  simp [viewWorkflowContent, hrepo, hfetch, hlint, World.log, beforeLint]

theorem writes_append_map_Write (t : List Event) (ls : List String) :
    writes (t ++ ls.map Event.Write) = writes t + ls.length := by
  induction ls generalizing t with
  | nil => simp
  | cons l ls ih =>
    have h := ih (t ++ [Event.Write l])
    simp only [List.append_assoc, List.singleton_append] at h
    simp [h, writes, List.countP_append, List.countP_cons, Event.isWrite]

/-- C4: when the lint engine returns an error, `viewWorkflowContent` returns a
non-nil error, makes no write on the output sink, and the sink's content after
the call equals its content before. -/
theorem C4_lint_failure_writes_nothing (env : Env) (opts : LintOptions) (client : Nat)
    (workflow : Workflow) (w : World) (repo : Repo) (yamlBytes : Bytes) (e : GoError)
    (hrepo : env.BaseRepo w.trace = .ok repo)
    (hfetch : env.GetWorkflowContent (w.trace ++ [.BaseRepo, .StartProgressIndicator])
      client repo workflow opts.Ref = .ok yamlBytes)
    (hlint : env.Lint (beforeLint w client repo workflow opts.Ref) workflow.Name yamlBytes
      = .error e) :
    (viewWorkflowContent env opts client workflow w).1 ≠ none ∧
      (viewWorkflowContent env opts client workflow w).2.out = w.out ∧
      writes (viewWorkflowContent env opts client workflow w).2.trace = writes w.trace := by
  simp only [beforeLint] at hlint
  simp [viewWorkflowContent, hrepo, hfetch, hlint, writes, List.countP_append,
    List.countP_cons, Event.isWrite]

/-- C4 on an engine that cannot parse the content. -/
theorem C4_lint_failure_writes_nothing_witness :
    (viewWorkflowContent
        { sampleEnv (.chan []) with Lint := fun _ _ _ => .error (.errorString "yaml: bad") }
        (NewCmdLint.opts false false "") 0 sampleWorkflow World.init).1 ≠ none ∧
      (viewWorkflowContent
        { sampleEnv (.chan []) with Lint := fun _ _ _ => .error (.errorString "yaml: bad") }
        (NewCmdLint.opts false false "") 0 sampleWorkflow World.init).2.out = World.init.out ∧
      writes (viewWorkflowContent
        { sampleEnv (.chan []) with Lint := fun _ _ _ => .error (.errorString "yaml: bad") }
        (NewCmdLint.opts false false "") 0 sampleWorkflow World.init).2.trace
        = writes World.init.trace :=
  C4_lint_failure_writes_nothing _ (NewCmdLint.opts false false "") 0 sampleWorkflow
    World.init sampleRepo [] (.errorString "yaml: bad") rfl rfl rfl

/-- C10: when the fetch and the lint pass succeed, `viewWorkflowContent` returns
nil whatever the sink answers to each write, and it attempts one write per
problem: a failed write is not reported and does not stop the loop. -/
theorem C10_write_failures_ignored (env : Env) (opts : LintOptions) (client : Nat)
    (workflow : Workflow) (w : World) (repo : Repo) (yamlBytes : Bytes) (ps : Problems)
    (hrepo : env.BaseRepo w.trace = .ok repo)
    (hfetch : env.GetWorkflowContent (w.trace ++ [.BaseRepo, .StartProgressIndicator])
      client repo workflow opts.Ref = .ok yamlBytes)
    (hlint : env.Lint (beforeLint w client repo workflow opts.Ref) workflow.Name yamlBytes
      = .ok ps) :
    (viewWorkflowContent env opts client workflow w).1 = none ∧
      writes (viewWorkflowContent env opts client workflow w).2.trace
        = writes w.trace + ps.elems.length := by
  rw [viewWorkflowContent_ok env opts client workflow w repo yamlBytes ps hrepo hfetch hlint]
  refine ⟨rfl, ?_⟩
  have hmap : (rangeVars ps).map (fun v => Event.Write (Sprintln v))
      = ((rangeVars ps).map Sprintln).map Event.Write := by simp
  simp only [printLoop_trace, hmap, writes_append_map_Write, List.length_map,
    rangeVars_length]
  simp [beforeLint, writes, List.countP_append, List.countP_cons, Event.isWrite]

/-- C10 on a sink that rejects every write, with two problems to report. -/
theorem C10_write_failures_ignored_witness :
    (viewWorkflowContent
        { sampleEnv (.chan ["a", "b"]) with
          Write := fun _ _ => (0, some (.errorString "broken pipe")) }
        (NewCmdLint.opts false false "") 0 sampleWorkflow World.init).1 = none ∧
      writes (viewWorkflowContent
        { sampleEnv (.chan ["a", "b"]) with
          Write := fun _ _ => (0, some (.errorString "broken pipe")) }
        (NewCmdLint.opts false false "") 0 sampleWorkflow World.init).2.trace
        = writes World.init.trace + (Problems.chan ["a", "b"]).elems.length :=
  C10_write_failures_ignored _ (NewCmdLint.opts false false "") 0 sampleWorkflow
    World.init sampleRepo [] (.chan ["a", "b"]) rfl rfl rfl

/-- C1: when the content fetch succeeds and the engine returns the problems
`p1..pN`, `viewWorkflowContent` returns nil and, after the lint pass, makes
exactly `N` writes on the output sink, the i-th being the text of `p_i` followed
by a newline, in the engine's order, with nothing added, dropped or merged; on a
sink that accepts them the output grows by exactly those `N` lines (by nothing
for `N = 0`). -/
theorem C1_report_lines (env : Env) (opts : LintOptions) (client : Nat)
    (workflow : Workflow) (w : World) (repo : Repo) (yamlBytes : Bytes) (ps : Problems)
    (hrepo : env.BaseRepo w.trace = .ok repo)
    (hfetch : env.GetWorkflowContent (w.trace ++ [.BaseRepo, .StartProgressIndicator])
      client repo workflow opts.Ref = .ok yamlBytes)
    (hlint : env.Lint (beforeLint w client repo workflow opts.Ref) workflow.Name yamlBytes
      = .ok ps) :
    (viewWorkflowContent env opts client workflow w).1 = none ∧
      (viewWorkflowContent env opts client workflow w).2.trace
        = beforeLint w client repo workflow opts.Ref ++ [.Lint workflow.Name yamlBytes]
          ++ ps.elems.map (fun p => Event.Write (p ++ "\n")) ∧
      writes (viewWorkflowContent env opts client workflow w).2.trace
        = writes w.trace + ps.elems.length ∧
      (env.sinkAccepts →
        (viewWorkflowContent env opts client workflow w).2.out
          = w.out ++ (ps.elems.map (fun p => bytesOf (p ++ "\n"))).flatten) := by
  rw [viewWorkflowContent_ok env opts client workflow w repo yamlBytes ps hrepo hfetch hlint]
  cases ps with
  | chan xs =>
    refine ⟨rfl, ?_, ?_, ?_⟩
    · simp [printLoop_trace, rangeVars, Problems.elems, Sprintln]
    · have hmap : xs.map (fun v => Event.Write (Sprintln v))
          = (xs.map Sprintln).map Event.Write := by simp
      simp only [printLoop_trace, rangeVars, Problems.elems, hmap, writes_append_map_Write,
        List.length_map]
      simp [beforeLint, writes, List.countP_append, List.countP_cons, Event.isWrite]
    · intro hsink
      simp [printLoop_out env hsink, rangeVars, Problems.elems, Sprintln]

/-- C1 at scenario A of the specification: the engine returns the one problem
`line 3: unused input 'foo'` and the output is exactly that one line. -/
theorem C1_report_lines_witness :
    (viewWorkflowContent (sampleEnv (.chan ["line 3: unused input 'foo'"]))
        (sampleOpts false false "") 0 sampleWorkflow World.init).1 = none ∧
      (viewWorkflowContent (sampleEnv (.chan ["line 3: unused input 'foo'"]))
        (sampleOpts false false "") 0 sampleWorkflow World.init).2.trace
        = beforeLint World.init 0 sampleRepo sampleWorkflow "" ++ [.Lint "CI" []]
          ++ [Event.Write "line 3: unused input 'foo'\n"] ∧
      (viewWorkflowContent (sampleEnv (.chan ["line 3: unused input 'foo'"]))
        (sampleOpts false false "") 0 sampleWorkflow World.init).2.out
        = bytesOf "line 3: unused input 'foo'\n" :=
  have h := C1_report_lines (sampleEnv (.chan ["line 3: unused input 'foo'"]))
    (sampleOpts false false "") 0 sampleWorkflow World.init sampleRepo []
    (.chan ["line 3: unused input 'foo'"]) rfl rfl rfl
  ⟨h.1, h.2.1, by
    rw [h.2.2.2 (fun _ _ => rfl)]
    simp [Problems.elems, World.init]⟩

/-- C5, the code on an engine failure with cause `yaml: bad` for a workflow
named `CI` stored at `.github/workflows/build.yml`: the returned error is a
plain error with the text `error linting file CI: yaml: bad`; it has no
wrapped cause and its text does not contain the file name `build.yml`. -/
theorem C5_lint_error_flattened :
    (viewWorkflowContent
        { sampleEnv (.chan []) with Lint := fun _ _ _ => .error (.errorString "yaml: bad") }
        (NewCmdLint.opts false false "") 0 sampleWorkflow World.init).1
        = some (.errorString "error linting file CI: yaml: bad") ∧
      (GoError.errorString "error linting file CI: yaml: bad").Unwrap = none ∧
      sampleWorkflow.Base = "build.yml" ∧
      ¬ Contains "error linting file CI: yaml: bad" sampleWorkflow.Base := by
  decide

/-! ## What a run adds to the trace -/

theorem printLoop_filter (env : Env) (p : Event → Bool) (hW : ∀ t, p (.Write t) = false)
    (vs : List String) (w : World) :
    (printLoop env vs w).trace.filter p = w.trace.filter p := by
  induction vs generalizing w with
  | nil => simp [printLoop]
  | cons v vs ih => simp [printLoop, ih, List.filter_append, List.filter_cons, hW]

/-- The calls `viewWorkflowContent` makes are base-repository lookups,
progress-indicator calls, content fetches, lint passes and writes: the calls of
any other kind in its trace are those of the state it started from. -/
theorem viewWorkflowContent_filter (env : Env) (opts : LintOptions) (client : Nat)
    (workflow : Workflow) (w : World) (p : Event → Bool)
    (hB : p .BaseRepo = false) (hS : p .StartProgressIndicator = false)
    (hT : p .StopProgressIndicator = false) (hW : ∀ t, p (.Write t) = false)
    (hF : ∀ c r wf ref, p (.GetWorkflowContent c r wf ref) = false)
    (hL : ∀ n b, p (.Lint n b) = false) :
    (viewWorkflowContent env opts client workflow w).2.trace.filter p = w.trace.filter p := by
  unfold viewWorkflowContent
  split
  · simp [List.filter_append, List.filter_cons, hB]
  · dsimp only
    split
    · split
      · split <;> simp [List.filter_append, List.filter_cons, hB, hS, hT, hF]
      · simp [List.filter_append, List.filter_cons, hB, hS, hT, hF]
    · split
      · simp [List.filter_append, List.filter_cons, hB, hS, hT, hF, hL]
      · simp [printLoop_filter env p hW, List.filter_append, List.filter_cons, hB, hS, hT,
          hF, hL]

/-- A successful `viewWorkflowContent` made exactly one content fetch and
exactly one lint pass. -/
theorem viewWorkflowContent_success_counts (env : Env) (opts : LintOptions) (client : Nat)
    (workflow : Workflow) (w : World)
    (hok : (viewWorkflowContent env opts client workflow w).1 = none) :
    fetches (viewWorkflowContent env opts client workflow w).2.trace = fetches w.trace + 1 ∧
      lintPasses (viewWorkflowContent env opts client workflow w).2.trace
        = lintPasses w.trace + 1 := by
  unfold viewWorkflowContent at hok ⊢
  split at hok
  · simp at hok
  · dsimp only at hok ⊢
    split at hok
    · split at hok
      · split at hok <;> simp at hok
      · simp at hok
    · split at hok
      · simp at hok
      · rename_i hfetch _ _ hlint
        simp only [hfetch, hlint]
        simp only [fetches, lintPasses, List.countP_eq_length_filter]
        rw [printLoop_filter env _ (by intro t; rfl), printLoop_filter env _ (by intro t; rfl)]
        simp [List.filter_append, List.filter_cons, Event.isFetch, Event.isLint]

/-- The calls `openInBrowser` makes are a terminal query, at most one write and
the browser call. -/
theorem openInBrowser_filter (env : Env) (url : String) (w : World) (p : Event → Bool)
    (hT : p .IsStdoutTTY = false) (hW : ∀ t, p (.Write t) = false)
    (hB : ∀ u, p (.Browse u) = false) :
    (openInBrowser env url w).2.trace.filter p = w.trace.filter p := by
  unfold openInBrowser
  dsimp only
  split <;> simp [List.filter_append, List.filter_cons, hT, hW, hB]

/-- The last call of `openInBrowser` is the browser call, and its result is
what the browser answered. -/
theorem openInBrowser_result (env : Env) (url : String) (w : World) :
    (openInBrowser env url w).2.trace.getLast? = some (.Browse url) ∧
      (openInBrowser env url w).1
        = env.Browse (openInBrowser env url w).2.trace.dropLast url := by
  unfold openInBrowser
  dsimp only
  split <;> simp [List.dropLast_concat, ← List.append_assoc]

/-- Once the HTTP client and the repository are obtained, the resolutions in
the trace of `runView` are those of the starting state followed by one
resolution, made with the filter `[Active]`. -/
theorem runView_resolutions (env : Env) (opts : LintOptions) (w : World) (client : Nat)
    (repo : Repo)
    (hclient : env.HttpClient w.trace = .ok client)
    (hrepo : env.BaseRepo (w.trace ++ [.HttpClient]) = .ok repo) :
    (runView env opts w).2.trace.filter Event.isResolve
      = w.trace.filter Event.isResolve
        ++ [.ResolveWorkflow client repo opts.Prompt opts.Selector [.Active]] := by
  unfold runView
  simp only [hclient, World.log_trace, hrepo]
  repeat' split
  all_goals first
    | simp [List.filter_append, List.filter_cons, Event.isResolve]
    | (rw [openInBrowser_filter env _ _ Event.isResolve rfl (fun _ => rfl) (fun _ => rfl)]
       simp [List.filter_append, List.filter_cons, Event.isResolve])
    | (rw [viewWorkflowContent_filter env opts _ _ _ Event.isResolve rfl rfl rfl
        (fun _ => rfl) (fun _ _ _ _ => rfl) (fun _ _ => rfl)]
       simp [List.filter_append, List.filter_cons, Event.isResolve])

/-- With `--web`, `runView` makes no content fetch and no lint pass. -/
theorem runView_web_no_fetch_no_lint (env : Env) (opts : LintOptions) (w : World)
    (hweb : opts.Web = true) :
    fetches (runView env opts w).2.trace = fetches w.trace ∧
      lintPasses (runView env opts w).2.trace = lintPasses w.trace := by
  unfold runView
  simp only [hweb, if_true, World.log_trace, fetches, lintPasses, List.countP_eq_length_filter]
  repeat' split
  all_goals first
    | simp [List.filter_append, List.filter_cons, Event.isFetch, Event.isLint]
    | (rw [openInBrowser_filter env _ _ Event.isFetch rfl (fun _ => rfl) (fun _ => rfl),
        openInBrowser_filter env _ _ Event.isLint rfl (fun _ => rfl) (fun _ => rfl)]
       simp [List.filter_append, List.filter_cons, Event.isFetch, Event.isLint])

/-- Without `--web`, after a successful resolution `runView` is
`viewWorkflowContent` on the resolved workflow. -/
theorem runView_content (env : Env) (opts : LintOptions) (w : World) (client : Nat)
    (repo : Repo) (workflow : Workflow)
    (hclient : env.HttpClient w.trace = .ok client)
    (hrepo : env.BaseRepo (w.trace ++ [.HttpClient]) = .ok repo)
    (hresolve : env.ResolveWorkflow (beforeResolve w) client repo opts.Prompt opts.Selector
      [.Active] = .ok workflow)
    (hweb : opts.Web = false) :
    runView env opts w = viewWorkflowContent env opts client workflow
      (afterResolve w client repo opts) := by
  simp only [beforeResolve] at hresolve
  simp [runView, hclient, hrepo, hresolve, hweb, afterResolve, beforeResolve, World.log]

/-- When the resolver fails, `runView` returns the resolver's error as it is and
stops there. -/
theorem runView_resolve_error (env : Env) (opts : LintOptions) (w : World) (client : Nat)
    (repo : Repo) (e : GoError)
    (hclient : env.HttpClient w.trace = .ok client)
    (hrepo : env.BaseRepo (w.trace ++ [.HttpClient]) = .ok repo)
    (hresolve : env.ResolveWorkflow (beforeResolve w) client repo opts.Prompt opts.Selector
      [.Active] = .error e) :
    runView env opts w = (some e, afterResolve w client repo opts) := by
  simp only [beforeResolve] at hresolve
  simp [runView, hclient, hrepo, hresolve, afterResolve, beforeResolve, World.log]

/-- `openInBrowser` opens the browser exactly once. -/
theorem openInBrowser_browses (env : Env) (url : String) (w : World) :
    browses (openInBrowser env url w).2.trace = browses w.trace + 1 := by
  unfold openInBrowser
  dsimp only
  split <;> simp [browses, List.countP_append, List.countP_cons, Event.isBrowse]

/-- Without `--web`, `runView` never opens the browser. -/
theorem runView_no_web_no_browse (env : Env) (opts : LintOptions) (w : World)
    (hweb : opts.Web = false) :
    browses (runView env opts w).2.trace = browses w.trace := by
  unfold runView
  simp only [hweb, Bool.false_eq_true, if_false, World.log_trace, browses,
    List.countP_eq_length_filter]
  repeat' split
  all_goals first
    | simp [List.filter_append, List.filter_cons, Event.isBrowse]
    | (rw [viewWorkflowContent_filter env opts _ _ _ Event.isBrowse rfl rfl rfl
        (fun _ => rfl) (fun _ _ _ _ => rfl) (fun _ _ => rfl)]
       simp [List.filter_append, List.filter_cons, Event.isBrowse])

/-- With `--web`, a run that completes with nil opened the browser exactly once,
as its last call. -/
theorem runView_web_success (env : Env) (opts : LintOptions) (w : World)
    (hweb : opts.Web = true) (hok : (runView env opts w).1 = none) :
    browses (runView env opts w).2.trace = browses w.trace + 1 ∧
      ∃ url, (runView env opts w).2.trace.getLast? = some (.Browse url) := by
  unfold runView at hok ⊢
  simp only [hweb, if_true, World.log_trace] at hok ⊢
  repeat' split
  all_goals try simp_all
  all_goals
    refine ⟨?_, _, (openInBrowser_result env _ _).1⟩
    rw [openInBrowser_browses]
    simp [browses, List.countP_append, List.countP_cons, Event.isBrowse]

/-- With `--web`, a run whose last call is the browser returns what the browser
returned. -/
theorem runView_browse_result (env : Env) (opts : LintOptions) (w : World) (url : String)
    (hweb : opts.Web = true)
    (hlast : (runView env opts w).2.trace.getLast? = some (.Browse url)) :
    (runView env opts w).1 = env.Browse (runView env opts w).2.trace.dropLast url := by
  unfold runView at hlast ⊢
  simp only [hweb, if_true, World.log_trace] at hlast ⊢
  repeat' split
  all_goals try simp_all
  all_goals
    have h1 := (openInBrowser_result env _ _).1.symm.trans hlast
    simp only [Option.some.injEq, Event.Browse.injEq] at h1
    rw [← h1]
    exact (openInBrowser_result env _ _).2

/-! ## Resolution (C6) and the one-pass invariant (C7) -/

/-- C6: once the HTTP client and the repository are obtained, `runView` resolves
the workflow exactly once, against the state filter `[Active]`; and if that
resolution fails with `e`, `runView` returns `e`, makes no content fetch, no
lint pass and no write, and leaves the output sink as it was. -/
theorem C6_resolution_failure_stops (env : Env) (opts : LintOptions) (w : World)
    (client : Nat) (repo : Repo)
    (hclient : env.HttpClient w.trace = .ok client)
    (hrepo : env.BaseRepo (w.trace ++ [.HttpClient]) = .ok repo) :
    (runView env opts w).2.trace.filter Event.isResolve
        = w.trace.filter Event.isResolve
          ++ [.ResolveWorkflow client repo opts.Prompt opts.Selector [.Active]] ∧
      ∀ e, env.ResolveWorkflow (beforeResolve w) client repo opts.Prompt opts.Selector
          [.Active] = .error e →
        (runView env opts w).1 = some e ∧
        fetches (runView env opts w).2.trace = fetches w.trace ∧
        lintPasses (runView env opts w).2.trace = lintPasses w.trace ∧
        writes (runView env opts w).2.trace = writes w.trace ∧
        (runView env opts w).2.out = w.out := by
  refine ⟨runView_resolutions env opts w client repo hclient hrepo, ?_⟩
  intro e he
  rw [runView_resolve_error env opts w client repo e hclient hrepo he]
  simp [afterResolve, beforeResolve, fetches, lintPasses, writes, List.countP_append,
    List.countP_cons, Event.isFetch, Event.isLint, Event.isWrite]

/-- C6 at scenario B of the specification: selector `42` matches no active
workflow, and the resolver's error comes back unchanged. -/
theorem C6_resolution_failure_stops_witness :
    (runView { sampleEnv (.chan []) with
        ResolveWorkflow := fun _ _ _ _ _ _ => .error (.errorString "could not find workflow") }
      { NewCmdLint.opts false false "" with Selector := "42" } World.init).1
      = some (.errorString "could not find workflow") ∧
    fetches (runView { sampleEnv (.chan []) with
        ResolveWorkflow := fun _ _ _ _ _ _ => .error (.errorString "could not find workflow") }
      { NewCmdLint.opts false false "" with Selector := "42" } World.init).2.trace
      = fetches World.init.trace ∧
    lintPasses (runView { sampleEnv (.chan []) with
        ResolveWorkflow := fun _ _ _ _ _ _ => .error (.errorString "could not find workflow") }
      { NewCmdLint.opts false false "" with Selector := "42" } World.init).2.trace
      = lintPasses World.init.trace ∧
    writes (runView { sampleEnv (.chan []) with
        ResolveWorkflow := fun _ _ _ _ _ _ => .error (.errorString "could not find workflow") }
      { NewCmdLint.opts false false "" with Selector := "42" } World.init).2.trace
      = writes World.init.trace ∧
    (runView { sampleEnv (.chan []) with
        ResolveWorkflow := fun _ _ _ _ _ _ => .error (.errorString "could not find workflow") }
      { NewCmdLint.opts false false "" with Selector := "42" } World.init).2.out
      = World.init.out :=
  (C6_resolution_failure_stops _ { NewCmdLint.opts false false "" with Selector := "42" }
    World.init 0 sampleRepo rfl rfl).2 (.errorString "could not find workflow") rfl

/-- C7 as stated fails with `--web`: on `gh workflow lint build.yml --web` every
collaborator succeeds, `runView` completes with nil, and it made one resolution
and opened the browser once but made no content fetch and no lint pass. -/
theorem C7_web_run_counterexample :
    (runView (sampleEnv (.chan [])) (sampleOpts true false "") World.init).1 = none ∧
      resolutions (runView (sampleEnv (.chan [])) (sampleOpts true false "")
        World.init).2.trace = 1 ∧
      fetches (runView (sampleEnv (.chan [])) (sampleOpts true false "")
        World.init).2.trace = 0 ∧
      lintPasses (runView (sampleEnv (.chan [])) (sampleOpts true false "")
        World.init).2.trace = 0 ∧
      browses (runView (sampleEnv (.chan [])) (sampleOpts true false "")
        World.init).2.trace = 1 := by
  decide

/-- C7, amended: every run of `runView` that completes with nil made exactly one
workflow resolution. Without `--web` it also made exactly one content fetch and
exactly one lint pass, and did not open the browser. With `--web` it opened the
browser exactly once, as its last call, which answered nil, and made no content
fetch and no lint pass. -/
theorem C7_one_pass_per_stage (env : Env) (opts : LintOptions) (w : World)
    (hok : (runView env opts w).1 = none) :
    resolutions (runView env opts w).2.trace = resolutions w.trace + 1 ∧
      (opts.Web = false →
        fetches (runView env opts w).2.trace = fetches w.trace + 1 ∧
        lintPasses (runView env opts w).2.trace = lintPasses w.trace + 1 ∧
        browses (runView env opts w).2.trace = browses w.trace) ∧
      (opts.Web = true →
        fetches (runView env opts w).2.trace = fetches w.trace ∧
        lintPasses (runView env opts w).2.trace = lintPasses w.trace ∧
        browses (runView env opts w).2.trace = browses w.trace + 1 ∧
        ∃ url, (runView env opts w).2.trace.getLast? = some (.Browse url) ∧
          env.Browse (runView env opts w).2.trace.dropLast url = none) := by
  have hwebcase : opts.Web = true →
      fetches (runView env opts w).2.trace = fetches w.trace ∧
      lintPasses (runView env opts w).2.trace = lintPasses w.trace ∧
      browses (runView env opts w).2.trace = browses w.trace + 1 ∧
      ∃ url, (runView env opts w).2.trace.getLast? = some (.Browse url) ∧
        env.Browse (runView env opts w).2.trace.dropLast url = none := by
    intro hweb
    obtain ⟨hb, url, hlast⟩ := runView_web_success env opts w hweb hok
    refine ⟨(runView_web_no_fetch_no_lint env opts w hweb).1,
      (runView_web_no_fetch_no_lint env opts w hweb).2, hb, url, hlast, ?_⟩
    rw [← runView_browse_result env opts w url hweb hlast]
    exact hok
  cases hclient : env.HttpClient w.trace with
  | error e => simp [runView, hclient] at hok
  | ok client =>
    cases hrepo : env.BaseRepo (w.trace ++ [.HttpClient]) with
    | error e => simp [runView, hclient, hrepo] at hok
    | ok repo =>
      cases hresolve : env.ResolveWorkflow (beforeResolve w) client repo opts.Prompt
          opts.Selector [.Active] with
      | error e =>
        rw [runView_resolve_error env opts w client repo e hclient hrepo hresolve] at hok
        simp at hok
      | ok workflow =>
        refine ⟨?_, ?_, hwebcase⟩
        · simp [resolutions, List.countP_eq_length_filter,
            runView_resolutions env opts w client repo hclient hrepo]
        · intro hweb
          refine ⟨?_, ?_, runView_no_web_no_browse env opts w hweb⟩
          all_goals
            rw [runView_content env opts w client repo workflow hclient hrepo hresolve hweb]
              at hok ⊢
            have h := viewWorkflowContent_success_counts env opts client workflow _ hok
            first
              | (rw [h.1]
                 simp [afterResolve, beforeResolve, fetches, List.countP_append,
                   List.countP_cons, Event.isFetch])
              | (rw [h.2]
                 simp [afterResolve, beforeResolve, lintPasses, List.countP_append,
                   List.countP_cons, Event.isLint])

/-- C7 (amended) on the all-succeeding sample collaborators: `gh workflow lint
build.yml` fetches and lints once and opens no browser; `gh workflow lint
build.yml --web` opens the browser once and neither fetches nor lints. -/
theorem C7_one_pass_per_stage_witness :
    (resolutions (runView (sampleEnv (.chan ["a"])) (sampleOpts false false "")
        World.init).2.trace = resolutions World.init.trace + 1 ∧
      fetches (runView (sampleEnv (.chan ["a"])) (sampleOpts false false "")
        World.init).2.trace = fetches World.init.trace + 1 ∧
      lintPasses (runView (sampleEnv (.chan ["a"])) (sampleOpts false false "")
        World.init).2.trace = lintPasses World.init.trace + 1 ∧
      browses (runView (sampleEnv (.chan ["a"])) (sampleOpts false false "")
        World.init).2.trace = browses World.init.trace) ∧
    (resolutions (runView (sampleEnv (.chan ["a"])) (sampleOpts true false "")
        World.init).2.trace = resolutions World.init.trace + 1 ∧
      fetches (runView (sampleEnv (.chan ["a"])) (sampleOpts true false "")
        World.init).2.trace = fetches World.init.trace ∧
      lintPasses (runView (sampleEnv (.chan ["a"])) (sampleOpts true false "")
        World.init).2.trace = lintPasses World.init.trace ∧
      browses (runView (sampleEnv (.chan ["a"])) (sampleOpts true false "")
        World.init).2.trace = browses World.init.trace + 1) :=
  have h1 := C7_one_pass_per_stage (sampleEnv (.chan ["a"])) (sampleOpts false false "")
    World.init (by decide)
  have h2 := C7_one_pass_per_stage (sampleEnv (.chan ["a"])) (sampleOpts true false "")
    World.init (by decide)
  ⟨⟨h1.1, (h1.2.1 rfl).1, (h1.2.1 rfl).2.1, (h1.2.1 rfl).2.2⟩,
    ⟨h2.1, (h2.2.2 rfl).1, (h2.2.2 rfl).2.1, (h2.2.2 rfl).2.2.1⟩⟩

/-! ## Propagation of collaborator failures (C8) -/

theorem wrapError_ne (msg : String) (e : GoError) : GoError.wrapError msg e ≠ e := by
  intro h
  have h2 := congrArg sizeOf h
  simp at h2

theorem Errorf_w_wraps (context : String) (e : GoError) : Wraps (Errorf_w context e) e context :=
  ⟨rfl, wrapError_ne _ e, rfl⟩

/-- C8 as stated fails at the resolution stage: the resolver fails with `e`,
and `runView` returns `e` itself, not an error that wraps `e` with context. -/
theorem C8_resolver_error_not_wrapped :
    (runView { sampleEnv (.chan []) with
        ResolveWorkflow := fun _ _ _ _ _ _ => .error (.errorString "could not find workflow") }
      { NewCmdLint.opts false false "" with Selector := "42" } World.init).1
      = some (.errorString "could not find workflow") ∧
    ¬ ∃ r context, (runView { sampleEnv (.chan []) with
        ResolveWorkflow := fun _ _ _ _ _ _ => .error (.errorString "could not find workflow") }
      { NewCmdLint.opts false false "" with Selector := "42" } World.init).1 = some r ∧
      Wraps r (.errorString "could not find workflow") context := by
  refine ⟨by decide, ?_⟩
  rintro ⟨r, context, hr, hw⟩
  have h : (runView { sampleEnv (.chan []) with
        ResolveWorkflow := fun _ _ _ _ _ _ => .error (.errorString "could not find workflow") }
      { NewCmdLint.opts false false "" with Selector := "42" } World.init).1
      = some (.errorString "could not find workflow") := by decide
  rw [h] at hr
  exact hw.2.1 (Option.some.inj hr).symm

/-- C8, amended: for every failure `e` returned by one of these collaborators of
the pipeline (HTTP client construction, base-repository lookup, workflow
resolution, default-branch lookup, content fetch with a non-404 error, browser
open), `runView` returns a non-nil error from which `e` is recovered. A failure
of the HTTP client construction, of a base-repository lookup or of the content
fetch with a non-404 error comes back wrapped with the stage's context (the
returned error is not `e`, `e` is its wrapped cause, its text is the context
followed by the text of `e`); a failure of the workflow resolution, of the
default-branch lookup or of the browser comes back as `e` itself. -/
theorem C8_collaborator_failures_reach_caller (env : Env) (opts : LintOptions) (w : World)
    (e : GoError) :
    (env.HttpClient w.trace = .error e →
      ∃ r, (runView env opts w).1 = some r ∧ Wraps r e "could not build http client: ") ∧
    (∀ client, env.HttpClient w.trace = .ok client →
      (env.BaseRepo (w.trace ++ [.HttpClient]) = .error e →
        ∃ r, (runView env opts w).1 = some r ∧ Wraps r e "could not determine base repo: ") ∧
      (∀ repo, env.BaseRepo (w.trace ++ [.HttpClient]) = .ok repo →
        (env.ResolveWorkflow (beforeResolve w) client repo opts.Prompt opts.Selector [.Active]
            = .error e →
          (runView env opts w).1 = some e) ∧
        (∀ workflow, env.ResolveWorkflow (beforeResolve w) client repo opts.Prompt
            opts.Selector [.Active] = .ok workflow →
          (opts.Web = true → opts.YAML = true → opts.Ref = "" →
            env.RepoDefaultBranch
              ((afterResolve w client repo opts).trace ++ [.StartProgressIndicator])
              client repo = .error e →
            (runView env opts w).1 = some e) ∧
          (opts.Web = true → ∀ url,
            (runView env opts w).2.trace.getLast? = some (.Browse url) →
            env.Browse (runView env opts w).2.trace.dropLast url = some e →
            (runView env opts w).1 = some e) ∧
          (opts.Web = false →
            (env.BaseRepo (afterResolve w client repo opts).trace = .error e →
              ∃ r, (runView env opts w).1 = some r ∧
                Wraps r e "could not determine base repo: ") ∧
            (∀ repo2, env.BaseRepo (afterResolve w client repo opts).trace = .ok repo2 →
              env.GetWorkflowContent
                ((afterResolve w client repo opts).trace ++ [.BaseRepo, .StartProgressIndicator])
                client repo2 workflow opts.Ref = .error e →
              isHTTP404 e = false →
              ∃ r, (runView env opts w).1 = some r ∧
                Wraps r e "could not get workflow file content: "))))) := by
  refine ⟨?_, ?_⟩
  · intro h
    exact ⟨_, by simp [runView, h], Errorf_w_wraps _ e⟩
  · intro client hclient
    refine ⟨?_, ?_⟩
    · intro h
      exact ⟨_, by simp [runView, hclient, h], Errorf_w_wraps _ e⟩
    · intro repo hrepo
      refine ⟨?_, ?_⟩
      · intro h
        rw [runView_resolve_error env opts w client repo e hclient hrepo h]
      · intro workflow hresolve
        refine ⟨?_, ?_, ?_⟩
        · intro hweb hyaml href h
          simp only [beforeResolve] at hresolve
          simp only [afterResolve, beforeResolve, List.append_assoc, List.cons_append,
            List.nil_append] at h
          simp [runView, hclient, hrepo, hresolve, hweb, hyaml, href, h]
        · intro hweb url hlast hbrowse
          rw [runView_browse_result env opts w url hweb hlast, hbrowse]
        · intro hweb
          rw [runView_content env opts w client repo workflow hclient hrepo hresolve hweb]
          refine ⟨?_, ?_⟩
          · intro h
            exact ⟨_, by simp [viewWorkflowContent, h], Errorf_w_wraps _ e⟩
          · intro repo2 hrepo2 h h404
            exact ⟨_, by simp [viewWorkflowContent, hrepo2, h, h404], Errorf_w_wraps _ e⟩

/-- C8 (amended) on `gh workflow lint build.yml`: a content fetch that fails
with an HTTP 500 comes back wrapped with the context of the fetch stage, and a
resolver failure comes back as it is. -/
theorem C8_collaborator_failures_reach_caller_witness :
    (∃ r, (runView
        { sampleEnv (.chan []) with
          GetWorkflowContent := fun _ _ _ _ _ => .error (.HTTPError 500 "HTTP 500") }
        (sampleOpts false false "") World.init).1 = some r ∧
      Wraps r (.HTTPError 500 "HTTP 500") "could not get workflow file content: ") ∧
    (runView
        { sampleEnv (.chan []) with
          ResolveWorkflow := fun _ _ _ _ _ _ => .error (.errorString "could not find workflow") }
        (sampleOpts false false "") World.init).1
      = some (.errorString "could not find workflow") :=
  ⟨((((((C8_collaborator_failures_reach_caller
      { sampleEnv (.chan []) with
        GetWorkflowContent := fun _ _ _ _ _ => .error (.HTTPError 500 "HTTP 500") }
      (sampleOpts false false "") World.init (.HTTPError 500 "HTTP 500")).2
      0 rfl).2 sampleRepo rfl).2 sampleWorkflow rfl).2.2 rfl).2 sampleRepo rfl rfl rfl),
    (((C8_collaborator_failures_reach_caller
      { sampleEnv (.chan []) with
        ResolveWorkflow := fun _ _ _ _ _ _ => .error (.errorString "could not find workflow") }
      (sampleOpts false false "") World.init (.errorString "could not find workflow")).2
      0 rfl).2 sampleRepo rfl).1 rfl⟩

/-! ## The command line (C9) -/

/-- Every run of `runView` builds the HTTP client exactly once and calls no
`runF`: it adds exactly one pipeline start to the trace. -/
theorem runView_pipelineStarts (env : Env) (opts : LintOptions) (w : World) :
    pipelineStarts (runView env opts w).2.trace = pipelineStarts w.trace + 1 := by
  unfold runView
  simp only [World.log_trace, pipelineStarts, List.countP_eq_length_filter]
  repeat' split
  all_goals first
    | simp [List.filter_append, List.filter_cons, Event.isPipelineStart]
    | (rw [openInBrowser_filter env _ _ Event.isPipelineStart rfl (fun _ => rfl)
        (fun _ => rfl)]
       simp [List.filter_append, List.filter_cons, Event.isPipelineStart])
    | (rw [viewWorkflowContent_filter env opts _ _ _ Event.isPipelineStart rfl rfl rfl
        (fun _ => rfl) (fun _ _ _ _ => rfl) (fun _ _ => rfl)]
       simp [List.filter_append, List.filter_cons, Event.isPipelineStart])

/-- The flag check of `RunE` and what follows it, for any argument list `RunE`
is run on. -/
theorem RunE_ref_requires_yaml (env : Env)
    (runF : Option (List Event → LintOptions → Option GoError))
    (web yaml : Bool) (ref : String) (args : List String) (w : World)
    (hsel : args ≠ [] ∨ env.CanPrompt (w.trace ++ [.IsStdoutTTY]) = true) :
    (((RunE env runF (NewCmdLint.opts web yaml ref) args w).1
          = some (FlagErrorf "`--yaml` required when specifying `--ref`") ∧
        pipelineStarts (RunE env runF (NewCmdLint.opts web yaml ref) args w).2.2.trace
          = pipelineStarts w.trace)
      ↔ (ref ≠ "" ∧ yaml = false)) ∧
    (¬ (ref ≠ "" ∧ yaml = false) →
      pipelineStarts (RunE env runF (NewCmdLint.opts web yaml ref) args w).2.2.trace
        = pipelineStarts w.trace + 1 ∧
      (∀ a rest, args = a :: rest →
        (RunE env runF (NewCmdLint.opts web yaml ref) args w).2.1.Selector = a) ∧
      ((RunE env runF (NewCmdLint.opts web yaml ref) args w).2.1.Prompt = true ↔ args = []) ∧
      (RunE env runF (NewCmdLint.opts web yaml ref) args w).2.1.Ref = ref ∧
      (RunE env runF (NewCmdLint.opts web yaml ref) args w).2.1.Web = web ∧
      (RunE env runF (NewCmdLint.opts web yaml ref) args w).2.1.YAML = yaml ∧
      (∀ f, runF = some f →
        (RunE env runF (NewCmdLint.opts web yaml ref) args w).2.2.trace
          = (afterQueries args w).trace
            ++ [.runF (RunE env runF (NewCmdLint.opts web yaml ref) args w).2.1] ∧
        (RunE env runF (NewCmdLint.opts web yaml ref) args w).1
          = f (afterQueries args w).trace (RunE env runF (NewCmdLint.opts web yaml ref) args w).2.1) ∧
      (runF = none →
        ((RunE env runF (NewCmdLint.opts web yaml ref) args w).1,
            (RunE env runF (NewCmdLint.opts web yaml ref) args w).2.2)
          = runView env (RunE env runF (NewCmdLint.opts web yaml ref) args w).2.1
              (afterQueries args w))) := by
  have hq : pipelineStarts (afterQueries args w).trace = pipelineStarts w.trace := by
    cases args <;>
      simp [afterQueries, pipelineStarts, List.countP_append, List.countP_cons,
        Event.isPipelineStart]
  by_cases hrej : ref ≠ "" ∧ yaml = false
  · obtain ⟨href, hyaml⟩ := hrej
    refine ⟨⟨fun _ => ⟨href, hyaml⟩, fun _ => ?_⟩, fun h => absurd ⟨href, hyaml⟩ h⟩
    cases args with
    | cons a rest =>
      simp [RunE, NewCmdLint.opts, href, hyaml, pipelineStarts,
        List.countP_append, List.countP_cons, Event.isPipelineStart]
    | nil =>
      have hp : env.CanPrompt (w.trace ++ [.IsStdoutTTY]) = true := by
        rcases hsel with h | h
        · exact absurd rfl h
        · exact h
      simp [RunE, NewCmdLint.opts, href, hyaml, hp, pipelineStarts,
        List.countP_append, List.countP_cons, Event.isPipelineStart]
  · have hgoP : ¬ (yaml = false ∧ ¬ ref = "") := fun h => hrej ⟨h.2, h.1⟩
    have hgo : (!yaml && decide (ref ≠ "")) = false := by
      cases yaml <;> simp_all
    have hstart : pipelineStarts (RunE env runF (NewCmdLint.opts web yaml ref) args w).2.2.trace
        = pipelineStarts w.trace + 1 := by
      rw [← hq]
      cases args with
      | cons a rest =>
        cases runF with
        | some f =>
          simp [RunE, NewCmdLint.opts, hgoP, afterQueries, pipelineStarts,
            List.countP_append, List.countP_cons, Event.isPipelineStart]
        | none =>
          simp only [RunE, NewCmdLint.opts, hgo, afterQueries]
          exact runView_pipelineStarts env _ _
      | nil =>
        have hp : env.CanPrompt (w.trace ++ [.IsStdoutTTY]) = true := by
          rcases hsel with h | h
          · exact absurd rfl h
          · exact h
        cases runF with
        | some f =>
          simp [RunE, NewCmdLint.opts, hgoP, hp, afterQueries, pipelineStarts,
            List.countP_append, List.countP_cons, Event.isPipelineStart]
        | none =>
          simp only [RunE, NewCmdLint.opts, hgo, hp, afterQueries,
            World.log_trace]
          exact runView_pipelineStarts env _ _
    refine ⟨⟨fun h => ?_, fun h => absurd h hrej⟩, fun _ => ⟨hstart, ?_⟩⟩
    · rw [h.2] at hstart
      omega
    · cases args with
      | cons a rest =>
        cases runF with
        | some f =>
          simp [RunE, NewCmdLint.opts, hgoP, afterQueries]
        | none =>
          simp [RunE, NewCmdLint.opts, hgoP, afterQueries]
      | nil =>
        have hp : env.CanPrompt (w.trace ++ [.IsStdoutTTY]) = true := by
          rcases hsel with h | h
          · exact absurd rfl h
          · exact h
        cases runF with
        | some f =>
          simp [RunE, NewCmdLint.opts, hgoP, hp, afterQueries]
        | none =>
          simp [RunE, NewCmdLint.opts, hgoP, hp, afterQueries]

/-- With at most one positional argument the validator passes and the command
runs `RunE`. -/
theorem NewCmdLint_eq_RunE (env : Env)
    (runF : Option (List Event → LintOptions → Option GoError))
    (web yaml : Bool) (ref : String) (args : List String) (w : World)
    (hargs : args.length ≤ 1) :
    NewCmdLint env runF web yaml ref args w
      = RunE env runF (NewCmdLint.opts web yaml ref) args w := by
  have h : ¬ (args.length > 1) := by omega
  simp [NewCmdLint, MaximumNArgs, h]

/-- C9: when the command reaches and passes the selector check (at most one
argument, so that cobra runs `RunE`, and either an argument is given or the
session can prompt), the command is rejected with the flag error "`--yaml` required
when specifying `--ref`" without starting the pipeline if and only if the ref
is non-empty and `--yaml` is off. Otherwise the pipeline is started exactly
once, on the options whose `Selector` is the first argument when one is given,
whose `Prompt` is true exactly when no argument is given and whose `Ref`, `Web`
and `YAML` are the flags: a non-nil `runF` is called once on them and its
result returned, and with a nil `runF` the result is that of `runView` on
them. -/
theorem C9_ref_requires_yaml (env : Env)
    (runF : Option (List Event → LintOptions → Option GoError))
    (web yaml : Bool) (ref : String) (args : List String) (w : World)
    (hargs : args.length ≤ 1)
    (hsel : args ≠ [] ∨ env.CanPrompt (w.trace ++ [.IsStdoutTTY]) = true) :
    (((NewCmdLint env runF web yaml ref args w).1
          = some (FlagErrorf "`--yaml` required when specifying `--ref`") ∧
        pipelineStarts (NewCmdLint env runF web yaml ref args w).2.2.trace
          = pipelineStarts w.trace)
      ↔ (ref ≠ "" ∧ yaml = false)) ∧
    (¬ (ref ≠ "" ∧ yaml = false) →
      pipelineStarts (NewCmdLint env runF web yaml ref args w).2.2.trace
        = pipelineStarts w.trace + 1 ∧
      (∀ a rest, args = a :: rest →
        (NewCmdLint env runF web yaml ref args w).2.1.Selector = a) ∧
      ((NewCmdLint env runF web yaml ref args w).2.1.Prompt = true ↔ args = []) ∧
      (NewCmdLint env runF web yaml ref args w).2.1.Ref = ref ∧
      (NewCmdLint env runF web yaml ref args w).2.1.Web = web ∧
      (NewCmdLint env runF web yaml ref args w).2.1.YAML = yaml ∧
      (∀ f, runF = some f →
        (NewCmdLint env runF web yaml ref args w).2.2.trace
          = (afterQueries args w).trace
            ++ [.runF (NewCmdLint env runF web yaml ref args w).2.1] ∧
        (NewCmdLint env runF web yaml ref args w).1
          = f (afterQueries args w).trace (NewCmdLint env runF web yaml ref args w).2.1) ∧
      (runF = none →
        ((NewCmdLint env runF web yaml ref args w).1,
            (NewCmdLint env runF web yaml ref args w).2.2)
          = runView env (NewCmdLint env runF web yaml ref args w).2.1
              (afterQueries args w))) := by
  rw [NewCmdLint_eq_RunE env runF web yaml ref args w hargs]
  exact RunE_ref_requires_yaml env runF web yaml ref args w hsel

/-- C9 on `gh workflow lint build.yml --ref feature/x` without `--yaml`: the
command is rejected and no pipeline is started. -/
theorem C9_ref_requires_yaml_witness :
    ((NewCmdLint (sampleEnv (.chan [])) none false false "feature/x" ["build.yml"]
          World.init).1
          = some (FlagErrorf "`--yaml` required when specifying `--ref`") ∧
        pipelineStarts (NewCmdLint (sampleEnv (.chan [])) none false false "feature/x"
          ["build.yml"] World.init).2.2.trace = pipelineStarts World.init.trace)
      ↔ (("feature/x" : String) ≠ "" ∧ false = false) :=
  (C9_ref_requires_yaml (sampleEnv (.chan [])) none false false "feature/x" ["build.yml"]
    World.init (by decide) (Or.inl (by simp))).1

/-! ## Further properties of the report and of the lint error -/

/-- On an engine failure `e`, `viewWorkflowContent` returns a plain error with
the text `error linting file <display name>: <text of e>`: the text contains
the workflow's display name and the text of `e`, and the error has no wrapped
cause. -/
theorem lint_error_message (env : Env) (opts : LintOptions) (client : Nat)
    (workflow : Workflow) (w : World) (repo : Repo) (yamlBytes : Bytes) (e : GoError)
    (hrepo : env.BaseRepo w.trace = .ok repo)
    (hfetch : env.GetWorkflowContent (w.trace ++ [.BaseRepo, .StartProgressIndicator])
      client repo workflow opts.Ref = .ok yamlBytes)
    (hlint : env.Lint (beforeLint w client repo workflow opts.Ref) workflow.Name yamlBytes
      = .error e) :
    ∃ r, (viewWorkflowContent env opts client workflow w).1 = some r ∧
      r.Error = "error linting file " ++ workflow.Name ++ ": " ++ e.Error ∧
      Contains r.Error workflow.Name ∧ Contains r.Error e.Error ∧ r.Unwrap = none := by
  simp only [beforeLint] at hlint
  refine ⟨.errorString ("error linting file " ++ workflow.Name ++ ": " ++ e.Error), ?_, rfl,
    ?_, ?_, rfl⟩
  · simp [viewWorkflowContent, hrepo, hfetch, hlint, Errorf]
  · exact contains_append_right _ (contains_append_right _
      (contains_append_left _ (contains_self _)))
  · exact contains_append_left _ (contains_self _)

/-- The lint error on an engine that cannot parse the content. -/
theorem lint_error_message_witness :
    ∃ r, (viewWorkflowContent
        { sampleEnv (.chan []) with Lint := fun _ _ _ => .error (.errorString "yaml: bad") }
        (NewCmdLint.opts false false "") 0 sampleWorkflow World.init).1 = some r ∧
      r.Error = "error linting file " ++ sampleWorkflow.Name ++ ": "
        ++ (GoError.errorString "yaml: bad").Error ∧
      Contains r.Error sampleWorkflow.Name ∧
      Contains r.Error (GoError.errorString "yaml: bad").Error ∧ r.Unwrap = none :=
  lint_error_message _ (NewCmdLint.opts false false "") 0 sampleWorkflow World.init sampleRepo
    [] (.errorString "yaml: bad") rfl rfl rfl

/-- With more than one positional argument the command fails in cobra's
argument validation: `RunE` is not run, no collaborator is called and nothing is
written. -/
theorem NewCmdLint_too_many_args (env : Env)
    (runF : Option (List Event → LintOptions → Option GoError))
    (web yaml : Bool) (ref : String) (args : List String) (w : World)
    (hargs : 1 < args.length) :
    NewCmdLint env runF web yaml ref args w
      = (some (.errorString ("accepts at most 1 arg(s), received " ++ toString args.length)),
          NewCmdLint.opts web yaml ref, w) := by
  simp [NewCmdLint, MaximumNArgs, hargs, Errorf]
  rfl

/-- Two positional arguments: `accepts at most 1 arg(s), received 2`. -/
theorem NewCmdLint_too_many_args_witness :
    NewCmdLint (sampleEnv (.chan [])) none false false "" ["a", "b"] World.init
      = (some (.errorString ("accepts at most 1 arg(s), received "
          ++ toString ["a", "b"].length)),
          NewCmdLint.opts false false "", World.init) :=
  NewCmdLint_too_many_args (sampleEnv (.chan [])) none false false "" ["a", "b"] World.init
    (by decide)

end Lint
